import Mathlib

/-!
Shallow embedding of the `fetch-client` HTTP library.

The embedding follows the TypeScript sources:
* `src/libs/core.ts` — `ApiError`, `ApiRequest` (retry/backoff loop, body
  building) and `ApiResponse` (auto content-type decoding);
* `src/libs/constants.ts` — retry defaults, content-type tables;
* the interceptor module — `Interceptor` (ordered middleware chain);
* the client module — `Client.validateConfig`, `Client.normalizeError`.

JavaScript strings are Lean `String`s, JS numbers are `Int`/`ℚ`, the opaque
transport (`fetch`) is a function from the attempt index to an outcome, and
asynchronous control flow is sequentialized (each attempt settles before the
next starts, exactly as the `await` in the source forces).
-/

/-- ASCII lowercasing of one character, used for case-insensitive header
names (the platform `Headers` class normalizes names to lowercase). -/
def lowerChar (c : Char) : Char :=
  if 'A' ≤ c ∧ c ≤ 'Z' then Char.ofNat (c.toNat + 32) else c

/-- ASCII lowercasing of a string. -/
def lowerStr (s : String) : String := String.mk (s.data.map lowerChar)

/-- Does the first list of characters occur at the head of the second. -/
def listStarts : List Char → List Char → Bool
  | [], _ => true
  | _ :: _, [] => false
  | a :: as, b :: bs => a == b && listStarts as bs

/-- Does `needle` occur anywhere inside the second list. -/
def listHasSub (needle : List Char) : List Char → Bool
  | [] => needle.isEmpty
  | c :: rest => listStarts needle (c :: rest) || listHasSub needle rest

/-- JavaScript `hay.includes(needle)` on strings. -/
def strIncludes (hay needle : String) : Bool := listHasSub needle.data hay.data

/-- JavaScript regex test anchored at the string start: `/^pre/.test s`. -/
def strStarts (s pre : String) : Bool := listStarts pre.data s.data

/-- Header collection of the platform `Headers` class: a list of
(name, value) pairs whose names are kept lowercased, in insertion order. -/
abbrev HeadersMap := List (String × String)

/-- The empty header collection. -/
def hempty : HeadersMap := []

/-- Model of `Headers.set name value`: replaces the value of an existing header of the
same (case-insensitive) name, otherwise appends the header. -/
def hset (hs : HeadersMap) (name value : String) : HeadersMap :=
  let key := lowerStr name
  if hs.any (fun p => p.1 == key) then
    hs.map (fun p => if p.1 == key then (p.1, value) else p)
  else
    hs ++ [(key, value)]

/-- Model of `Headers.get name`: the value of the header, case-insensitively. -/
def hget (hs : HeadersMap) (name : String) : Option String :=
  (hs.find? (fun p => p.1 == lowerStr name)).map (fun p => p.2)

/-- JSON values, the payload of a plain structured body. -/
inductive Json where
  | null
  | bool (b : Bool)
  | num (n : Int)
  | str (s : String)
  | arr (elems : List Json)
  | obj (fields : List (String × Json))

/-- Escaping of one character inside a JSON string literal. -/
def escapeChar (c : Char) : String :=
  if c = '"' ∨ c = '\\' then String.mk ['\\', c] else String.mk [c]

/-- Rendering of a JSON string literal, quotes included. -/
def renderStr (s : String) : String :=
  "\"" ++ String.join (s.data.map escapeChar) ++ "\""

mutual

/-- Model of `JSON.stringify` on the `Json` values. -/
def Json.render : Json → String
  | .null => "null"
  | .bool true => "true"
  | .bool false => "false"
  | .num n => toString n
  | .str s => renderStr s
  | .arr es => "[" ++ renderArr es ++ "]"
  | .obj fs => "\x7b" ++ renderObj fs ++ "\x7d"

/-- Comma-separated rendering of JSON array elements. -/
def renderArr : List Json → String
  | [] => ""
  | [j] => Json.render j
  | j :: rest => Json.render j ++ "," ++ renderArr rest

/-- Comma-separated rendering of JSON object fields. -/
def renderObj : List (String × Json) → String
  | [] => ""
  | [(k, v)] => renderStr k ++ ":" ++ Json.render v
  | (k, v) :: rest => renderStr k ++ ":" ++ Json.render v ++ "," ++ renderObj rest

end

/-- HTTP methods (`src/libs/types.ts` union of string literals). -/
inductive HttpMethod where
  | GET | POST | PUT | PATCH | DELETE | HEAD | OPTIONS
deriving DecidableEq

/-- The wire name of a method. -/
def HttpMethod.str : HttpMethod → String
  | .GET => "GET"
  | .POST => "POST"
  | .PUT => "PUT"
  | .PATCH => "PATCH"
  | .DELETE => "DELETE"
  | .HEAD => "HEAD"
  | .OPTIONS => "OPTIONS"

/-- Constant `READ_ONLY_METHODS` from `src/libs/constants.ts`. -/
def READ_ONLY_METHODS : List String := ["GET", "HEAD"]

/-- Constant `DEFAULT_HEADERS.JSON_CONTENT_TYPE` from `src/libs/constants.ts`. -/
def JSON_CONTENT_TYPE : String := "application/json"

/-- A request body value (`Body` in `src/libs/types.ts`): `nullish` is
`null`/`undefined`; `str` is a JS string; `native` is any of the remaining
native `BodyInit` classes (ArrayBuffer, Uint8Array, DataView, Blob, File,
FormData, URLSearchParams, ReadableStream), kept opaque with a tag; `obj`
is a plain structured object; `num`/`bool` are the other primitives. -/
inductive JSBody where
  | nullish
  | str (s : String)
  | native (tag : String)
  | obj (o : Json)
  | num (n : Int)
  | bool (b : Bool)

/-- Model of `ApiRequest.isNativeBodyType`: JS strings and the native `BodyInit`
classes pass through unmodified. -/
def isNativeBodyType : JSBody → Bool
  | .str _ => true
  | .native _ => true
  | _ => false

/-- JavaScript `data == null` (loose equality: `null` or `undefined`). -/
def isNullish : JSBody → Bool
  | .nullish => true
  | _ => false

/-- The body actually handed to the transport. -/
inductive SentBody where
  | str (s : String)
  | native (tag : String)
deriving DecidableEq

/-- Model of `ApiRequest.createBody` together with its side effect on the request
headers. Mirrors the source order: the GET/HEAD-or-nullish guard first, then
native `BodyInit` pass-through, then JSON encoding of objects (which sets the
`Content-Type` header via `Headers.set`), then `String(...)` of primitives.
The `.nullish` arm below is unreachable (caught by the guard). -/
def createBody (method : HttpMethod) (data : JSBody) (headers : HeadersMap) :
    Option SentBody × HeadersMap :=
  if READ_ONLY_METHODS.contains method.str || isNullish data then
    (none, headers)
  else match data with
  | .str s => (some (.str s), headers)
  | .native t => (some (.native t), headers)
  | .obj o => (some (.str (Json.render o)), hset headers "Content-Type" JSON_CONTENT_TYPE)
  | .num n => (some (.str (toString n)), headers)
  | .bool b => (some (.str (cond b "true" "false")), headers)
  | .nullish => (none, headers)

/-- Model of `ApiError` (`src/libs/core.ts`): the closed-set code, the HTTP status
(0 for network-level failures), and the human-readable message. The optional
response/request references and the timestamp carry no logic and are not
modelled. -/
structure ApiError where
  code : String
  status : Nat
  message : String
deriving DecidableEq

/-- Factory `ApiError.fromTimeout`: code TIMEOUT, status 408, fixed message. -/
def ApiError.fromTimeout : ApiError :=
  ⟨"TIMEOUT", 408, "Request timed out"⟩

/-- Factory `ApiError.fromNetworkError`: code NETWORK_ERROR, status 0, message embeds
the underlying error message. -/
def ApiError.fromNetworkError (msg : String) : ApiError :=
  ⟨"NETWORK_ERROR", 0, "Network error: " ++ msg⟩

/-- Factory `ApiError.fromResponse`: code HTTP_ERROR with the response status. -/
def ApiError.fromResponse (status : Nat) : ApiError :=
  ⟨"HTTP_ERROR", status, "Request failed with status " ++ toString status⟩

/-- Constant `DEFAULT_RETRY_STATUSES` from `src/libs/constants.ts`. -/
def DEFAULT_RETRY_STATUSES : List Nat := [408, 429, 500, 502, 503, 504]

/-- Constant `RETRY_DEFAULTS.MAX_RETRIES`. -/
def RETRY_DEFAULT_MAX_RETRIES : Int := 3

/-- Constant `RETRY_DEFAULTS.DELAY` (ms). -/
def RETRY_DEFAULT_DELAY : ℚ := 1000

/-- Constant `RETRY_DEFAULTS.MAX_DELAY` (ms). -/
def RETRY_MAX_DELAY : ℚ := 30000

/-- Constant `RETRY_DEFAULTS.JITTER_FACTOR`. -/
def RETRY_JITTER_FACTOR : ℚ := 1 / 10

/-- The `shouldRetry` field of a retry configuration: either an array of HTTP
status codes or a predicate function receiving the failed response
(`Sum.inl status`) or the thrown error (`Sum.inr (name, message)`). -/
inductive RetryPredicate where
  | statuses (ss : List Nat)
  | fn (p : Nat ⊕ (String × String) → Bool)

/-- The `retry` field of a request configuration (`number | RetryConfig`):
a bare number, or a record whose `delay` and `shouldRetry` are optional. -/
inductive RetryPolicy where
  | num (n : Int)
  | config (maxRetries : Int) (delay : Option ℚ) (shouldRetry : Option RetryPredicate)

/-- A fully resolved `Required<RetryConfig>`. -/
structure RetrySettings where
  maxRetries : Int
  delay : ℚ
  shouldRetry : RetryPredicate

/-- Model of `ApiRequest.getRetrySettings`: bare number keeps the default delay and
default status list; a config record fills missing fields with the defaults;
an absent policy is all defaults. -/
def getRetrySettings : Option RetryPolicy → RetrySettings
  | some (.num n) => ⟨n, RETRY_DEFAULT_DELAY, .statuses DEFAULT_RETRY_STATUSES⟩
  | some (.config m d p) =>
      ⟨m, d.getD RETRY_DEFAULT_DELAY, p.getD (.statuses DEFAULT_RETRY_STATUSES)⟩
  | none => ⟨RETRY_DEFAULT_MAX_RETRIES, RETRY_DEFAULT_DELAY, .statuses DEFAULT_RETRY_STATUSES⟩

/-- Predicate `Response.ok`: status in the 2xx range. -/
def responseOk (status : Nat) : Bool :=
  decide (200 ≤ status) && decide (status < 300)

/-- Model of `ApiRequest.shouldRetryResponse`: array form tests membership of the
status; function form applies the predicate to the response. -/
def shouldRetryResponse (status : Nat) (rs : RetrySettings) : Bool :=
  match rs.shouldRetry with
  | .statuses ss => ss.contains status
  | .fn p => p (.inl status)

/-- Model of `ApiRequest.shouldRetryError`: array form retries every error except
`AbortError`; function form applies the predicate to the error. -/
def shouldRetryError (name msg : String) (rs : RetrySettings) : Bool :=
  match rs.shouldRetry with
  | .statuses _ => name != "AbortError"
  | .fn p => p (.inr (name, msg))

/-- What one transport (`fetch`) invocation settles to: a response with a
status, a thrown `Error` with its `name` and `message`, or a thrown value
that is not an `Error` instance. -/
inductive FetchOutcome where
  | resp (status : Nat)
  | err (name msg : String)
  | nonError

/-- How `ApiRequest.send` terminates: return a response, throw an
`ApiError`, re-throw a non-`Error` value as-is, or fall through the loop to
the defensive `throw lastError` fallback. -/
inductive SendResult where
  | resp (status : Nat)
  | threw (e : ApiError)
  | rethrew
  | exhausted
deriving DecidableEq

/-- The retry loop of `ApiRequest.send`, one call per loop iteration.
`attempt` is the 0-based attempt index; `fuel` bounds the remaining
iterations (the caller passes `maxRetries + 1`, matching
`for (attempt = 0; attempt <= maxRetries; attempt++)`; running out of fuel is
the loop's fall-through). The transport is `f`, mapping the attempt index to
that attempt's outcome; the second component counts transport invocations.
Branch order follows the source: response retry test
(`!ok && attempt < maxRetries && shouldRetryResponse`), then for thrown
errors the `AbortError` timeout check before the retry test, and non-`Error`
values re-thrown as-is. -/
def sendAux (rs : RetrySettings) (f : Nat → FetchOutcome) :
    Nat → Nat → SendResult × Nat
  | _, 0 => (.exhausted, 0)
  | attempt, fuel + 1 =>
    match f attempt with
    | .resp status =>
      if !responseOk status && decide ((attempt : Int) < rs.maxRetries) &&
          shouldRetryResponse status rs then
        let rest := sendAux rs f (attempt + 1) fuel
        (rest.1, rest.2 + 1)
      else
        (.resp status, 1)
    | .err name msg =>
      if name == "AbortError" then
        (.threw ApiError.fromTimeout, 1)
      else if decide ((attempt : Int) < rs.maxRetries) && shouldRetryError name msg rs then
        let rest := sendAux rs f (attempt + 1) fuel
        (rest.1, rest.2 + 1)
      else
        (.threw (ApiError.fromNetworkError msg), 1)
    | .nonError => (.rethrew, 1)

/-- Model of `ApiRequest.send` for a given retry policy: resolve the settings and run
the attempt loop from attempt 0 with `maxRetries + 1` iterations available. -/
def send (retry : Option RetryPolicy) (f : Nat → FetchOutcome) : SendResult × Nat :=
  let rs := getRetrySettings retry
  sendAux rs f 0 (rs.maxRetries + 1).toNat

/-- The terminal value `send` produces from the outcome of its final
attempt (used to state what the loop returns once retries are exhausted). -/
def terminalOf : FetchOutcome → SendResult
  | .resp status => .resp status
  | .err _ msg => .threw (ApiError.fromNetworkError msg)
  | .nonError => .rethrew

/-- A retryable failed attempt in the sense of claim C1: a response whose
status is in the default retry status set, or a thrown non-abort `Error`. -/
def retryableFailure : FetchOutcome → Prop
  | .resp status => status ∈ DEFAULT_RETRY_STATUSES
  | .err name _ => name ≠ "AbortError"
  | .nonError => False

instance : (o : FetchOutcome) → Decidable (retryableFailure o)
  | .resp status => inferInstanceAs (Decidable (status ∈ DEFAULT_RETRY_STATUSES))
  | .err name _ => inferInstanceAs (Decidable (name ≠ "AbortError"))
  | .nonError => inferInstanceAs (Decidable False)

/-- Model of `ApiRequest.wait`: exponential backoff `delay * 2 ^ attempt`, plus jitter
of that value times `JITTER_FACTOR` times `Math.random()` (the argument
`rand`), capped at `MAX_DELAY`. -/
def waitDelay (delay : ℚ) (attempt : Nat) (rand : ℚ) : ℚ :=
  let exponentialDelay := delay * 2 ^ attempt
  let jitter := exponentialDelay * RETRY_JITTER_FACTOR * rand
  min (exponentialDelay + jitter) RETRY_MAX_DELAY

/-- The strategy `ApiResponse.autoParseData` picks: yield the absent value
without reading the body, try JSON then fall back to text, or decode as
JSON / text / binary (blob). -/
inductive DecodeChoice where
  | absent
  | jsonThenText
  | json
  | text
  | binary
deriving DecidableEq

/-- Constant `CONTENT_TYPES.JSON` from `src/libs/constants.ts`. -/
def CONTENT_TYPES_JSON : String := "json"

/-- Constant `CONTENT_TYPES.TEXT` from `src/libs/constants.ts`. -/
def CONTENT_TYPES_TEXT : List String := ["text/", "xml"]

/-- The regex `CONTENT_TYPES.BINARY`, anchored at the start: the content type
starts with one of the listed alternatives. -/
def binaryTest (ct : String) : Bool :=
  ["image", "video", "audio", "application/octet-stream"].any fun p => strStarts ct p

/-- Model of `ApiResponse.getContentType`: the `Content-Type` header, with the empty
string (falsy) coerced to `undefined` by `|| undefined`. -/
def getContentType (hs : HeadersMap) : Option String :=
  match hget hs "Content-Type" with
  | some v => if v == "" then none else some v
  | none => none

/-- Model of `ApiResponse.autoParseData`, reduced to the choice of decode strategy:
(1) 204/304 yield the absent value; (2) no content type tries JSON with text
fallback; (3) a content type containing "json" is JSON; (4) one containing
"text/" or "xml" is text; (5) one matching the binary regex is binary;
(6) anything else defaults to JSON. -/
def autoParseChoice (status : Nat) (contentType : Option String) : DecodeChoice :=
  if status == 204 || status == 304 then
    .absent
  else match contentType with
  | none => .jsonThenText
  | some ct =>
    if strIncludes ct CONTENT_TYPES_JSON then .json
    else if CONTENT_TYPES_TEXT.any (fun t => strIncludes ct t) then .text
    else if binaryTest ct then .binary
    else .json

/-- Modelled from the spec, exactly as claim C4 states the rule set; it
differs from the source only in step (4), which here requires the content
type to START with "text/" (the source tests containment). -/
def autoDecodeSpecStated (status : Nat) (contentType : Option String) : DecodeChoice :=
  if status == 204 || status == 304 then
    .absent
  else match contentType with
  | none => .jsonThenText
  | some ct =>
    if strIncludes ct "json" then .json
    else if strStarts ct "text/" || strIncludes ct "xml" then .text
    else if binaryTest ct then .binary
    else .json

/-- The spec's auto-decode rules as an ordered (predicate, decoder) list,
with step (4) amended to "contains text/ or contains xml". -/
def autoDecodeRules : List ((Nat → Option String → Bool) × DecodeChoice) :=
  [ (fun status _ => status == 204 || status == 304, .absent),
    (fun _ ct => ct.isNone, .jsonThenText),
    (fun _ ct => (ct.map fun s => strIncludes s "json").getD false, .json),
    (fun _ ct => (ct.map fun s => strIncludes s "text/" || strIncludes s "xml").getD false, .text),
    (fun _ ct => (ct.map fun s => binaryTest s).getD false, .binary) ]

/-- The amended claim C4 rule set: the first matching rule decides, JSON is
the default when no rule matches. -/
def autoDecodeSpecAmended (status : Nat) (ct : Option String) : DecodeChoice :=
  match autoDecodeRules.find? (fun r => r.1 status ct) with
  | some r => r.2
  | none => .json

/-- The two configuration fields `Client.validateConfig` inspects. `none` is
an absent field. -/
structure ClientConfig where
  timeout : Option ℚ
  baseURL : Option String

/-- Model of `Client.validateConfig`, run by the `Client` constructor. JavaScript
truthiness guards both checks: `this.config.timeout && this.config.timeout
<= 0` skips a timeout of 0 (falsy), and `this.config.baseURL && ...` skips
the empty string; the URL test is the regex `^https?://`. `Except.error` is
the thrown `Error`. -/
def validateConfig (c : ClientConfig) : Except String Unit :=
  if (match c.timeout with
      | some t => decide (t ≠ 0) && decide (t ≤ 0)
      | none => false) then
    .error "Timeout must be greater than 0"
  else if (match c.baseURL with
      | some u => u != "" && !(strStarts u "http://" || strStarts u "https://")
      | none => false) then
    .error "BaseURL must be a valid HTTP/HTTPS URL"
  else
    .ok ()

/-- A JavaScript thrown value as `Client.normalizeError` classifies it: an
`ApiError` instance, another `Error` instance (name and message), or a
non-`Error` throwable (`some s` is `String(error)` of a truthy value, `none`
a falsy one). -/
inductive Thrown where
  | api (e : ApiError)
  | jsError (name msg : String)
  | other (s : Option String)

/-- Model of `Client.normalizeError`: `ApiError` passes through unchanged, other
`Error`s become NETWORK_ERROR via `fromNetworkError`, anything else becomes
UNKNOWN_ERROR with status 0. -/
def normalizeError : Thrown → ApiError
  | .api e => e
  | .jsError _ msg => ApiError.fromNetworkError msg
  | .other s => ⟨"UNKNOWN_ERROR", 0, s.getD "Unknown error occurred"⟩

/-- The catch clause of `Client.request`: a pipeline value passes through,
any thrown value is rethrown as `normalizeError` of it — the facade's only
error surface is `ApiError`. -/
def requestCatch {V : Type} : Except Thrown V → Except ApiError V
  | .ok v => .ok v
  | .error t => .error (normalizeError t)

/-- Model of `Interceptor<T>` from the interceptor module: the handler map in
insertion order (JS `Map` preserves it; ids are never re-set) and the
`nextId` counter. Handlers are modelled as pure total transforms. -/
structure Interceptor (T : Type) where
  handlers : List (Nat × (T → T))
  nextId : Nat

/-- A freshly constructed interceptor: empty map, counter at 0. -/
def Interceptor.empty (T : Type) : Interceptor T :=
  ⟨[], 0⟩

/-- The body of `Interceptor.use` past the type guard:
`const id = this.nextId++; this.handlers.set(id, handler); return id`. -/
def Interceptor.useFn {T : Type} (s : Interceptor T) (h : T → T) : Nat × Interceptor T :=
  (s.nextId, ⟨s.handlers ++ [(s.nextId, h)], s.nextId + 1⟩)

/-- The argument of `Interceptor.use` as JavaScript sees it: a function, or
any value whose `typeof` is not `"function"`. -/
inductive HandlerArg (T : Type) where
  | fn (h : T → T)
  | notFn

/-- Model of `Interceptor.use`: a non-function argument throws a `TypeError` (the
`Except.error`) before any mutation; a function is registered under the
current counter value, which is returned and then incremented. -/
def Interceptor.use {T : Type} (s : Interceptor T) : HandlerArg T → Except String Nat × Interceptor T
  | .fn h =>
    let r := s.useFn h
    (.ok r.1, r.2)
  | .notFn => (.error "Handler must be a function", s)

/-- Model of `Interceptor.execute`: fold the registered handlers over the item in
registration order, each handler receiving the previous one's output. -/
def Interceptor.execute {T : Type} (s : Interceptor T) (item : T) : T :=
  s.handlers.foldl (fun result p => p.2 result) item

/-- Model of `Interceptor.reject`: delete the handler with the given id (ids are
unique, so `Map.delete` is a filter); the counter is untouched. -/
def Interceptor.reject {T : Type} (s : Interceptor T) (id : Nat) : Interceptor T :=
  ⟨s.handlers.filter (fun p => p.1 != id), s.nextId⟩

/-- Model of `Interceptor.clear`: drop all handlers; the counter is untouched. -/
def Interceptor.clear {T : Type} (s : Interceptor T) : Interceptor T :=
  ⟨[], s.nextId⟩

/-- One API call on an interceptor instance, for stating the handle
freshness invariant across arbitrary operation sequences. -/
inductive InterceptorOp (T : Type) where
  | useOp (a : HandlerArg T)
  | rejectOp (id : Nat)
  | clearOp

/-- Apply one operation; the second component is the handle `use` returned,
when it returned one. -/
def Interceptor.step {T : Type} (s : Interceptor T) : InterceptorOp T → Interceptor T × Option Nat
  | .useOp a =>
    let r := s.use a
    (r.2, match r.1 with | .ok id => some id | .error _ => none)
  | .rejectOp id => (s.reject id, none)
  | .clearOp => (s.clear, none)

/-- Run a sequence of operations, collecting the returned handles in
order. -/
def Interceptor.runOps {T : Type} (s : Interceptor T) :
    List (InterceptorOp T) → Interceptor T × List Nat
  | [] => (s, [])
  | op :: ops =>
    let r := s.step op
    let rest := r.1.runOps ops
    (rest.1, r.2.toList ++ rest.2)

/-- Every status in the default retry list is outside the 2xx range. -/
theorem default_statuses_not_ok {status : Nat} (h : status ∈ DEFAULT_RETRY_STATUSES) :
    responseOk status = false := by
  fin_cases h <;> rfl

/-- Membership in the default retry list makes the source's `includes` test
succeed. -/
theorem default_statuses_contains {status : Nat} (h : status ∈ DEFAULT_RETRY_STATUSES) :
    DEFAULT_RETRY_STATUSES.contains status = true :=
  List.elem_iff.mpr h

/-- One-step unfolding of the attempt loop when the attempt yields a
response. -/
theorem sendAux_resp_step (rs : RetrySettings) (f : Nat → FetchOutcome)
    (attempt fuel status : Nat) (h : f attempt = .resp status) :
    sendAux rs f attempt (fuel + 1)
      = if !responseOk status && decide ((attempt : Int) < rs.maxRetries) &&
            shouldRetryResponse status rs then
          ((sendAux rs f (attempt + 1) fuel).1, (sendAux rs f (attempt + 1) fuel).2 + 1)
        else (.resp status, 1) := by
  simp [sendAux, h]

/-- One-step unfolding of the attempt loop when the attempt throws a
non-abort `Error`. -/
theorem sendAux_err_step (rs : RetrySettings) (f : Nat → FetchOutcome)
    (attempt fuel : Nat) (name msg : String) (h : f attempt = .err name msg)
    (hb : (name == "AbortError") = false) :
    sendAux rs f attempt (fuel + 1)
      = if decide ((attempt : Int) < rs.maxRetries) && shouldRetryError name msg rs then
          ((sendAux rs f (attempt + 1) fuel).1, (sendAux rs f (attempt + 1) fuel).2 + 1)
        else (.threw (ApiError.fromNetworkError msg), 1) := by
  simp [sendAux, h, hb]

/-- Core of the retry loop analysis: when every attempt up to `N` fails with
a default-retryable condition, the loop level starting at `attempt` with
`N - attempt` retries left performs exactly `N - attempt + 1` transport
calls and ends on attempt `N`'s outcome. -/
theorem sendAux_all_retryable (N : Nat) (f : Nat → FetchOutcome)
    (hf : ∀ i, i ≤ N → retryableFailure (f i)) :
    ∀ (k attempt : Nat), attempt + k = N →
      sendAux ⟨(N : Int), RETRY_DEFAULT_DELAY, .statuses DEFAULT_RETRY_STATUSES⟩ f attempt (k + 1)
        = (terminalOf (f N), k + 1) := by
  intro k
  induction k with
  | zero =>
    intro attempt hN
    have ha : attempt = N := by omega
    subst ha
    have hself : ¬ ((attempt : Int) < (attempt : Int)) := lt_irrefl _
    cases hout : f attempt with
    | resp status =>
      simp [sendAux, hout, terminalOf, decide_eq_false hself]
    | err name msg =>
      have hr := hf attempt le_rfl
      rw [hout] at hr
      have hb : (name == "AbortError") = false := beq_eq_false_iff_ne.mpr hr
      simp [sendAux, hout, terminalOf, hb, decide_eq_false hself]
    | nonError =>
      have hr := hf attempt le_rfl
      rw [hout] at hr
      exact hr.elim
  | succ k ih =>
    intro attempt hN
    have hlt : ((attempt : Int) < (N : Int)) := by exact_mod_cast (by omega : attempt < N)
    cases hout : f attempt with
    | resp status =>
      have hr := hf attempt (by omega)
      rw [hout] at hr
      have hrec := ih (attempt + 1) (by omega)
      rw [sendAux_resp_step _ _ _ _ _ hout]
      simp [default_statuses_not_ok hr, default_statuses_contains hr,
        decide_eq_true hlt, shouldRetryResponse, hrec]
      exact ⟨by omega, hr⟩
    | err name msg =>
      have hr := hf attempt (by omega)
      rw [hout] at hr
      have hb : (name == "AbortError") = false := beq_eq_false_iff_ne.mpr hr
      have hrec := ih (attempt + 1) (by omega)
      rw [sendAux_err_step _ _ _ _ _ _ hout hb]
      simp [decide_eq_true hlt, shouldRetryError, hrec, bne, hb]
      omega
    | nonError =>
      have hr := hf attempt (by omega)
      rw [hout] at hr
      exact hr.elim

/-- C1: with a bare non-negative integer retry policy `N`, if every attempt
fails with a condition the default retry predicate accepts (a response
status in the default retry status set, or a non-abort thrown error),
`ApiRequest.send` performs exactly `N + 1` transport invocations and ends on
the final attempt's outcome, returning that response or throwing the
network error. -/
theorem send_bare_number_attempts (N : Nat) (f : Nat → FetchOutcome)
    (hf : ∀ i, i ≤ N → retryableFailure (f i)) :
    send (some (.num (N : Int))) f = (terminalOf (f N), N + 1) := by
  have h := sendAux_all_retryable N f hf N 0 (by omega)
  have hfuel : ((N : Int) + 1).toNat = N + 1 := by omega
  simpa [send, getRetrySettings, hfuel] using h

/-- C1 witness: three attempts with status 503 under bare retry policy 2:
exactly 3 transport invocations, and the third response is returned. -/
theorem send_bare_number_attempts_witness :
    send (some (.num (2 : Int))) (fun _ => .resp 503) = (SendResult.resp 503, 2 + 1) := by
  have h := send_bare_number_attempts 2 (fun _ => .resp 503)
    (fun _ _ => show (503 : Nat) ∈ DEFAULT_RETRY_STATUSES by decide)
  simpa [terminalOf] using h

/-- C3: an `AbortError` from the transport (the armed timeout firing) makes
the attempt loop throw `ApiError.fromTimeout` — code TIMEOUT, status 408 —
after that single invocation, for every retry configuration, attempt index
and remaining fuel: the retry predicate is never consulted and no further
attempt happens. `ApiRequest.send` runs `sendAux` from attempt 0 with fuel
`maxRetries + 1`, so every live loop iteration is an instance of this
statement. -/
theorem send_abort_is_timeout (rs : RetrySettings) (f : Nat → FetchOutcome)
    (attempt fuel : Nat) (msg : String)
    (h : f attempt = .err "AbortError" msg) :
    sendAux rs f attempt (fuel + 1) = (.threw ApiError.fromTimeout, 1) ∧
    ApiError.fromTimeout.code = "TIMEOUT" ∧
    ApiError.fromTimeout.status = 408 := by
  refine ⟨?_, rfl, rfl⟩
  simp [sendAux, h]

/-- C3 witness: a transport that aborts on the first attempt under the
default policy (3 retries available) throws the TIMEOUT error after one
call. -/
theorem send_abort_is_timeout_witness :
    sendAux (getRetrySettings none) (fun _ => .err "AbortError" "boom") 0 (3 + 1)
        = (.threw ApiError.fromTimeout, 1) ∧
    ApiError.fromTimeout.code = "TIMEOUT" ∧
    ApiError.fromTimeout.status = 408 :=
  send_abort_is_timeout (getRetrySettings none) (fun _ => .err "AbortError" "boom") 0 3 "boom" rfl

/-- C7: GET and HEAD requests never send a body, whatever body value the
configuration supplies. -/
theorem createBody_get_head_no_body (data : JSBody) (hs : HeadersMap) :
    (createBody .GET data hs).1 = none ∧ (createBody .HEAD data hs).1 = none :=
  ⟨rfl, rfl⟩

/-- Replacing the value of a present header in place, then looking it up,
finds the new value. -/
theorem find_map_set (lk v : String) :
    ∀ hs : HeadersMap, hs.any (fun p => p.1 == lk) = true →
      ((hs.map (fun p => if p.1 == lk then (p.1, v) else p)).find? (fun p => p.1 == lk)).map
          (fun p => p.2) = some v := by
  intro hs
  induction hs with
  | nil => intro h; simp at h
  | cons p t ih =>
    intro h
    rw [List.map_cons]
    by_cases hp : (p.1 == lk) = true
    · rw [if_pos hp]
      simp only [List.find?, hp]
      rfl
    · have hp' : (p.1 == lk) = false := by simpa using hp
      have ht : t.any (fun p => p.1 == lk) = true := by
        rw [List.any_cons, hp'] at h
        simpa using h
      rw [if_neg hp]
      simp only [List.find?, hp']
      exact ih ht

/-- Appending a header whose name is fresh, then looking it up, finds the
appended value. -/
theorem find_append_fresh (lk v : String) :
    ∀ hs : HeadersMap, hs.any (fun p => p.1 == lk) = false →
      ((hs ++ [(lk, v)]).find? (fun p => p.1 == lk)).map (fun p => p.2) = some v := by
  intro hs
  induction hs with
  | nil =>
    intro _
    simp only [List.nil_append, List.find?, beq_self_eq_true]
    rfl
  | cons p t ih =>
    intro h
    rw [List.any_cons, Bool.or_eq_false_iff] at h
    rw [List.cons_append]
    simp only [List.find?, h.1]
    exact ih h.2

/-- Lemma: `Headers.set` followed by `Headers.get` of the same name yields the
written value, whatever the prior header state. -/
theorem hget_hset (hs : HeadersMap) (k v : String) :
    hget (hset hs k v) k = some v := by
  cases hany : hs.any (fun p => p.1 == lowerStr k) with
  | true => simpa [hget, hset, hany] using find_map_set (lowerStr k) v hs hany
  | false => simpa [hget, hset, hany] using find_append_fresh (lowerStr k) v hs hany

/-- C2 counterexample: a POST whose body is the plain object with field
"a" = 1 and whose caller already set Content-Type to text/csv ends up with
Content-Type application/json — the already-present header is NOT left
unchanged, contrary to the claim. -/
theorem createBody_content_type_overwritten :
    hget (createBody .POST (.obj (Json.obj [("a", Json.num 1)]))
        (hset hempty "Content-Type" "text/csv")).2 "Content-Type" ≠ some "text/csv" ∧
    hget (createBody .POST (.obj (Json.obj [("a", Json.num 1)]))
        (hset hempty "Content-Type" "text/csv")).2 "Content-Type" = some "application/json" ∧
    hget (hset hempty "Content-Type" "text/csv") "Content-Type" = some "text/csv" :=
  ⟨by decide, by decide, by decide⟩

/-- C2 amended: for a non-GET/HEAD plain-object body, the outgoing body is
the JSON encoding of the object, and Content-Type is ALWAYS set to
application/json, overwriting any caller-set value. -/
theorem createBody_object_json (m : HttpMethod) (o : Json) (hs : HeadersMap)
    (hm : m.str ∉ READ_ONLY_METHODS) :
    createBody m (.obj o) hs
      = (some (.str (Json.render o)), hset hs "Content-Type" JSON_CONTENT_TYPE) ∧
    hget (createBody m (.obj o) hs).2 "Content-Type" = some JSON_CONTENT_TYPE := by
  have h1 : createBody m (.obj o) hs
      = (some (.str (Json.render o)), hset hs "Content-Type" JSON_CONTENT_TYPE) := by
    simp [createBody, hm, isNullish]
  refine ⟨h1, ?_⟩
  rw [h1]
  exact hget_hset hs "Content-Type" JSON_CONTENT_TYPE

/-- C2 witness: a POST with the null-object body from empty headers. -/
theorem createBody_object_json_witness :
    createBody .POST (.obj Json.null) hempty
      = (some (.str (Json.render Json.null)), hset hempty "Content-Type" JSON_CONTENT_TYPE) ∧
    hget (createBody .POST (.obj Json.null) hempty).2 "Content-Type" = some JSON_CONTENT_TYPE :=
  createBody_object_json .POST Json.null hempty (by decide)

/-- C9: `Client.normalizeError` rethrows an `ApiError` unchanged, wraps any
other `Error` as NETWORK_ERROR (status 0), wraps any non-`Error` throwable
as UNKNOWN_ERROR with status 0, and the catch clause of `Client.request`
rethrows exactly `normalizeError` of whatever was thrown — the facade only
ever throws `ApiError`. -/
theorem normalize_error_contract :
    (∀ e : ApiError, normalizeError (.api e) = e) ∧
    (∀ name msg : String, (normalizeError (.jsError name msg)).code = "NETWORK_ERROR" ∧
        (normalizeError (.jsError name msg)).status = 0) ∧
    (∀ s : Option String, (normalizeError (.other s)).code = "UNKNOWN_ERROR" ∧
        (normalizeError (.other s)).status = 0) ∧
    (∀ t : Thrown, requestCatch (Except.error t : Except Thrown Nat)
        = Except.error (normalizeError t)) :=
  ⟨fun _ => rfl, fun _ _ => ⟨rfl, rfl⟩, fun _ => ⟨rfl, rfl⟩, fun _ => rfl⟩

/-- C5 counterexample: a configured timeout of exactly 0 is given and not
greater than 0, yet construction succeeds: 0 is falsy, so the source's
`timeout && timeout <= 0` guard skips it. -/
theorem validateConfig_zero_timeout_passes :
    validateConfig ⟨some 0, none⟩ = Except.ok () ∧ ¬ ((0 : ℚ) > 0) :=
  ⟨rfl, lt_irrefl 0⟩

/-- C5 amended: construction succeeds iff any given timeout is zero
(treated as unset) or positive, and any given baseURL is empty (treated as
unset) or starts with http:// or https://; equivalently it throws exactly
for a given negative timeout or a given nonempty non-http(s) baseURL. The
checks run in the `Client` constructor, before any request. -/
theorem validateConfig_ok_iff (c : ClientConfig) :
    validateConfig c = Except.ok () ↔
      ((c.timeout.all fun t => decide (t = 0 ∨ 0 < t)) = true ∧
       (c.baseURL.all fun u =>
         u == "" || strStarts u "http://" || strStarts u "https://") = true) := by
  obtain ⟨ot, ou⟩ := c
  cases ot with
  | none =>
    cases ou with
    | none => simp [validateConfig]
    | some u =>
      by_cases h1 : u = "" <;> cases h2 : strStarts u "http://" <;>
        cases h3 : strStarts u "https://" <;> simp [validateConfig, h1, h2, h3]
  | some t =>
    by_cases ht0 : t = 0
    · subst ht0
      cases ou with
      | none => simp [validateConfig]
      | some u =>
        by_cases h1 : u = "" <;> cases h2 : strStarts u "http://" <;>
          cases h3 : strStarts u "https://" <;> simp [validateConfig, h1, h2, h3]
    · by_cases htle : t ≤ 0
      · simp [validateConfig, ht0, htle, not_lt.mpr htle]
      · have hpos : 0 < t := not_le.mp htle
        cases ou with
        | none => simp [validateConfig, ht0, htle, hpos]
        | some u =>
          by_cases h1 : u = "" <;> cases h2 : strStarts u "http://" <;>
            cases h3 : strStarts u "https://" <;>
              simp [validateConfig, ht0, htle, hpos, h1, h2, h3]

/-- C8 counterexample: at base delay 1000 and attempt index 5 (jitter draw
0, in range), the exponential value is 32000, above the 30000 cap, so the
actual wait 30000 lies BELOW the claimed interval [32000, 35200]. -/
theorem waitDelay_below_claimed_interval :
    (0 : ℚ) < 1000 ∧ (0 : ℚ) ≤ 0 ∧ (0 : ℚ) < 1 ∧
    waitDelay 1000 5 0 < 1000 * 2 ^ 5 := by
  refine ⟨by norm_num, le_refl 0, by norm_num, ?_⟩
  norm_num [waitDelay, RETRY_JITTER_FACTOR, RETRY_MAX_DELAY, min_def]

/-- C8 amended: for base delay d > 0, attempt index i and jitter draw in
[0, 1), the wait is the 30000 ms cap applied to a value in the interval
[d·2^i, d·2^i·1.1]: it lies between min(d·2^i, 30000) and
min(d·2^i·(11/10), 30000), and never exceeds 30000. -/
theorem waitDelay_bounds (delay : ℚ) (attempt : Nat) (rand : ℚ)
    (hd : 0 < delay) (h0 : 0 ≤ rand) (h1 : rand < 1) :
    min (delay * 2 ^ attempt) RETRY_MAX_DELAY ≤ waitDelay delay attempt rand ∧
    waitDelay delay attempt rand ≤ min (delay * 2 ^ attempt * (11 / 10)) RETRY_MAX_DELAY ∧
    waitDelay delay attempt rand ≤ RETRY_MAX_DELAY := by
  have he : (0 : ℚ) < delay * 2 ^ attempt := by positivity
  have hj0 : 0 ≤ delay * 2 ^ attempt * RETRY_JITTER_FACTOR * rand := by
    unfold RETRY_JITTER_FACTOR
    positivity
  have hj1 : delay * 2 ^ attempt * RETRY_JITTER_FACTOR * rand
      ≤ delay * 2 ^ attempt * (1 / 10) := by
    unfold RETRY_JITTER_FACTOR
    have ha : (0 : ℚ) ≤ delay * 2 ^ attempt * (1 / 10) := by positivity
    have := mul_le_mul_of_nonneg_left (le_of_lt h1) ha
    linarith [this]
  simp only [waitDelay]
  refine ⟨min_le_min (by linarith) le_rfl, ?_, min_le_right _ _⟩
  exact min_le_min (by linarith) le_rfl

/-- C8 witness: base delay 1000, attempt index 0, jitter draw one half. -/
theorem waitDelay_bounds_witness :
    (0 : ℚ) < 1000 ∧ (0 : ℚ) ≤ 1 / 2 ∧ (1 / 2 : ℚ) < 1 ∧
    (min (1000 * 2 ^ 0) RETRY_MAX_DELAY ≤ waitDelay 1000 0 (1 / 2) ∧
     waitDelay 1000 0 (1 / 2) ≤ min (1000 * 2 ^ 0 * (11 / 10)) RETRY_MAX_DELAY ∧
     waitDelay 1000 0 (1 / 2) ≤ RETRY_MAX_DELAY) :=
  ⟨by norm_num, by norm_num, by norm_num,
    waitDelay_bounds 1000 0 (1 / 2) (by norm_num) (by norm_num) (by norm_num)⟩

/-- C4 counterexample: the content type "x-text/plain" CONTAINS "text/" but
does not START with it; the source decodes it as text while the claim's
rule set (step 4 requiring a "text/" prefix) falls through to the JSON
default. -/
theorem autoParse_contains_vs_starts :
    autoParseChoice 200 (some "x-text/plain") = DecodeChoice.text ∧
    autoDecodeSpecStated 200 (some "x-text/plain") = DecodeChoice.json ∧
    DecodeChoice.text ≠ DecodeChoice.json :=
  ⟨by decide, by decide, by decide⟩

/-- C4 amended: the auto-decode strategy is exactly the claim's ordered
rule list with step (4) reading "contains text/ or contains xml" instead of
"starts with text/": the first matching rule decides and JSON is the
fallback. -/
theorem autoParse_matches_amended_rules (status : Nat) (ct : Option String) :
    autoParseChoice status ct = autoDecodeSpecAmended status ct := by
  unfold autoParseChoice autoDecodeSpecAmended autoDecodeRules
  cases ct with
  | none =>
    by_cases h : (status == 204 || status == 304) = true <;>
      simp [h, List.find?]
  | some s =>
    by_cases h1 : (status == 204 || status == 304) = true
    · simp [h1, List.find?]
    · cases h2 : strIncludes s "json" <;>
      cases h3 : strIncludes s "text/" <;>
      cases h4 : strIncludes s "xml" <;>
      cases h5 : binaryTest s <;>
        simp [h1, h2, h3, h4, h5, List.find?, CONTENT_TYPES_JSON, CONTENT_TYPES_TEXT,
          List.any_cons, List.any_nil]

/-- C6: `Interceptor.execute` applies handlers strictly in registration
order, feeding each handler's output to the next: appending a handler
post-composes it onto the chain; registering A then B and executing x gives
B(A(x)); removing A's handle first leaves only B, giving B(x). -/
theorem interceptor_execute_order (T : Type) (A B : T → T) (x : T) :
    (∀ (s : Interceptor T) (h : T → T), ((s.useFn h).2).execute x = h (s.execute x)) ∧
    ((((Interceptor.empty T).useFn A).2.useFn B).2.execute x = B (A x) ∧
     (((((Interceptor.empty T).useFn A).2.useFn B).2.reject
        ((Interceptor.empty T).useFn A).1).execute x = B x)) := by
  refine ⟨fun s h => ?_, rfl, rfl⟩
  simp [Interceptor.useFn, Interceptor.execute, List.foldl_append]

/-- Handles returned by any operation sequence are pairwise increasing and
all at least the starting counter value. -/
theorem runOps_handles_increasing {T : Type} :
    ∀ (ops : List (InterceptorOp T)) (s : Interceptor T),
      List.Pairwise (· < ·) (s.runOps ops).2 ∧
      ∀ id ∈ (s.runOps ops).2, s.nextId ≤ id := by
  intro ops
  induction ops with
  | nil => intro s; simp [Interceptor.runOps]
  | cons op rest ih =>
    intro s
    cases op with
    | useOp a =>
      cases a with
      | fn h =>
        have ihs := ih ⟨s.handlers ++ [(s.nextId, h)], s.nextId + 1⟩
        simp only [Interceptor.runOps, Interceptor.step, Interceptor.use, Interceptor.useFn,
          Option.toList, List.singleton_append]
        refine ⟨List.pairwise_cons.mpr ⟨fun y hy => ?_, ihs.1⟩, ?_⟩
        · exact lt_of_lt_of_le (Nat.lt_succ_self _) (ihs.2 y hy)
        · intro id hid
          rcases List.mem_cons.mp hid with h1 | h1
          · subst h1; exact le_refl _
          · exact le_trans (Nat.le_succ _) (ihs.2 id h1)
      | notFn =>
        simpa [Interceptor.runOps, Interceptor.step, Interceptor.use] using ih s
    | rejectOp i =>
      simpa [Interceptor.runOps, Interceptor.step] using ih (s.reject i)
    | clearOp =>
      simpa [Interceptor.runOps, Interceptor.step] using ih s.clear

/-- C10: `Interceptor.use` throws a TypeError on every non-function
argument, leaving the state untouched; on a function it registers the
handler under the current counter value, returns it, and increments the
counter; hence over any sequence of use/reject/clear operations from a
fresh interceptor the returned handles are strictly increasing — never
reused, even after removal or clear. -/
theorem interceptor_use_contract (T : Type) :
    (∀ s : Interceptor T, s.use .notFn = (Except.error "Handler must be a function", s)) ∧
    (∀ (s : Interceptor T) (h : T → T),
        s.use (.fn h) = (Except.ok s.nextId, ⟨s.handlers ++ [(s.nextId, h)], s.nextId + 1⟩)) ∧
    (∀ ops : List (InterceptorOp T),
        List.Pairwise (· < ·) (((Interceptor.empty T).runOps ops)).2) :=
  ⟨fun _ => rfl, fun _ _ => rfl,
    fun ops => (runOps_handles_increasing ops (Interceptor.empty T)).1⟩
